import Mathlib

/-!
# Fleetee GPS TCP server — formal model of the per-connection protocol engine

Shallow embedding of the two read handlers of the repository:

* `src/unnamed/part_000` (`handleGpsConnection`, lines 109–239): the
  explicit-framing handler — per-connection byte buffer, login branch,
  AVL framing loop, acknowledgement writes.  Embedded as `loopF` / `onData`
  over a `Conn` state, with socket writes and sink enqueues reified as an
  output list.
* `src/index.js` (`handleGpsConnection`): the parser-delegating handler;
  its record normalizer (lines 203–211) is embedded as `normIdx`, with the
  ambient clock (`Date.now()`) passed explicitly.

The Codec 8 / 8E data-field decoding is performed in the source by the
third-party package `complete-teltonika-parser`, which is not part of this
repository; it is modelled from the specification (§3, §4.B) as
`parseAvlPacket`.  Bytes are `Nat` values (each < 256 on a real wire);
buffer reads are explicit big-endian folds.  Latitude/longitude are kept as
raw signed integers (the claims never involve the degree conversion).
-/

namespace GpsServer

/-- Big-endian value of a byte list (as read by `Buffer.readUInt16BE` /
`readUInt32BE` on the corresponding slice). -/
def beVal (l : List Nat) : Nat := l.foldl (fun a b => a * 256 + b) 0

/-- Big-endian encoding of `n` into `w` bytes (`Buffer.writeUInt32BE` etc.). -/
def beBytes : Nat → Nat → List Nat
  | 0, _ => []
  | w + 1, n => beBytes w (n / 256) ++ [n % 256]

/-- One bit-shift step of CRC-16/IBM (reflected polynomial 0xA001). -/
def crcStep (c : Nat) : Nat := if c % 2 = 1 then (c / 2) ^^^ 0xA001 else c / 2

/-- Iterate `crcStep`. -/
def crcShift : Nat → Nat → Nat
  | 0, c => c
  | n + 1, c => crcShift n (crcStep c)

/-- Modelled from the spec: CRC-16/IBM (poly 0xA001, init 0) over the data
field (§3); the source delegates CRC handling to the third-party parser. -/
def crc16 (data : List Nat) : Nat := data.foldl (fun c b => crcShift 8 (c ^^^ b)) 0

/-- JS `x || d` on an optional number: `undefined` / `null` and `0` are falsy. -/
def jsOrNat : Option Nat → Nat → Nat
  | some v, d => if v = 0 then d else v
  | none, d => d

/-- JS `x || d` on an optional integer. -/
def jsOrInt : Option Int → Int → Int
  | some v, d => if v = 0 then d else v
  | none, d => d

/-- JS `x || null` on an optional number. -/
def jsToNullNat : Option Nat → Option Nat
  | some v => if v = 0 then none else some v
  | none => none

/-- JS `x || null` on an optional integer. -/
def jsToNullInt : Option Int → Option Int
  | some v => if v = 0 then none else some v
  | none => none

/-- Two's-complement reading of an unsigned `w`-bit value. -/
def toSigned (w : Nat) (n : Nat) : Int :=
  if n < 2 ^ (w - 1) then (n : Int) else (n : Int) - 2 ^ w

/-- GPS element of a decoded AVL record (parser field names, spec §3). -/
structure GpsElement where
  Longitude : Int
  Latitude : Int
  Altitude : Int
  Angle : Nat
  Satellites : Nat
  Speed : Nat
deriving DecidableEq

/-- I/O element of a decoded AVL record: event id, declared element count,
and the id → value table (`IOelement.Elements`). -/
structure IoElement where
  EventID : Nat
  ElementCount : Nat
  Elements : List (Nat × Nat)
deriving DecidableEq

/-- A decoded AVL record as exposed by the third-party parser
(`Content.AVL_Datas[i]`); the optional sub-elements reflect the `?.`
accesses in the normalizer. -/
structure RawRecord where
  Timestamp : Nat
  Priority : Nat
  GPSelement : Option GpsElement
  IOelement : Option IoElement
deriving DecidableEq

/-- Take the first `n` bytes if available (`none` on underrun). -/
def splitAt? (n : Nat) (l : List Nat) : Option (List Nat × List Nat) :=
  if n ≤ l.length then some (l.take n, l.drop n) else none

/-- Modelled from the spec: parse `count` fixed-width (id, value) I/O pairs
(§3, the four width blocks). -/
def parseIoPairs (idW valW : Nat) : Nat → List Nat → Option (List (Nat × Nat) × List Nat)
  | 0, l => some ([], l)
  | n + 1, l => do
    let (idB, l) ← splitAt? idW l
    let (vB, l) ← splitAt? valW l
    let (rest, l) ← parseIoPairs idW valW n l
    some ((beVal idB, beVal vB) :: rest, l)

/-- Modelled from the spec: parse `count` variable-length I/O entries of the
fifth Codec 8E block (§3). -/
def parseIoVar : Nat → List Nat → Option (List (Nat × Nat) × List Nat)
  | 0, l => some ([], l)
  | n + 1, l => do
    let (idB, l) ← splitAt? 2 l
    let (lenB, l) ← splitAt? 2 l
    let (vB, l) ← splitAt? (beVal lenB) l
    let (rest, l) ← parseIoVar n l
    some ((beVal idB, beVal vB) :: rest, l)

/-- Modelled from the spec: parse the GPS element of a record (§3). -/
def parseGps (l : List Nat) : Option (GpsElement × List Nat) := do
  let (lonB, l) ← splitAt? 4 l
  let (latB, l) ← splitAt? 4 l
  let (altB, l) ← splitAt? 2 l
  let (angB, l) ← splitAt? 2 l
  let (satB, l) ← splitAt? 1 l
  let (spdB, l) ← splitAt? 2 l
  some ({ Longitude := toSigned 32 (beVal lonB)
          Latitude := toSigned 32 (beVal latB)
          Altitude := toSigned 16 (beVal altB)
          Angle := beVal angB
          Satellites := beVal satB
          Speed := beVal spdB }, l)

/-- Modelled from the spec: parse one fixed-width I/O block — a count of
width `w` followed by that many (id, value) pairs with values `valW` bytes
wide (§3). -/
def parseIoBlock (w valW : Nat) (l : List Nat) : Option (List (Nat × Nat) × List Nat) := do
  let (cB, l) ← splitAt? w l
  parseIoPairs w valW (beVal cB) l

/-- Modelled from the spec: parse the whole I/O element of a record —
event id, total count, the four fixed-width blocks, and for Codec 8E the
fifth variable-length block (§3). -/
def parseIoElement (ext : Bool) (l : List Nat) : Option (IoElement × List Nat) := do
  let w := if ext then 2 else 1
  let (evB, l) ← splitAt? w l
  let (cntB, l) ← splitAt? w l
  let (p1, l) ← parseIoBlock w 1 l
  let (p2, l) ← parseIoBlock w 2 l
  let (p4, l) ← parseIoBlock w 4 l
  let (p8, l) ← parseIoBlock w 8 l
  let (pX, l) ←
    if ext then do
      let (cXB, l) ← splitAt? 2 l
      parseIoVar (beVal cXB) l
    else some ([], l)
  some ({ EventID := beVal evB
          ElementCount := beVal cntB
          Elements := p1 ++ p2 ++ p4 ++ p8 ++ pX }, l)

/-- Modelled from the spec: parse one AVL record (§3); `ext` is true for
Codec 8E (16-bit I/O ids and counts, fifth variable block). -/
def parseRecord (ext : Bool) (l : List Nat) : Option (RawRecord × List Nat) := do
  let (tsB, l) ← splitAt? 8 l
  let (prB, l) ← splitAt? 1 l
  let (gps, l) ← parseGps l
  let (io, l) ← parseIoElement ext l
  some ({ Timestamp := beVal tsB
          Priority := beVal prB
          GPSelement := some gps
          IOelement := some io }, l)

/-- Modelled from the spec: parse `n` consecutive AVL records (§4.B). -/
def parseRecords (ext : Bool) : Nat → List Nat → Option (List RawRecord × List Nat)
  | 0, l => some ([], l)
  | n + 1, l => do
    let (r, l) ← parseRecord ext l
    let (rs, l) ← parseRecords ext n l
    some (r :: rs, l)

/-- Modelled from the spec: parse the data field — codec id, record count,
records, trailing record count; the cursor must end exactly at the end of
the data field (§4.B). -/
def parseDataField (data : List Nat) : Option (List RawRecord) := do
  let (codecB, r) ← splitAt? 1 data
  let codec := beVal codecB
  if codec ≠ 0x08 ∧ codec ≠ 0x8E then none
  else do
    let (c1B, r) ← splitAt? 1 r
    let (rs, r) ← parseRecords (codec = 0x8E) (beVal c1B) r
    let (c2B, r) ← splitAt? 1 r
    if beVal c2B ≠ beVal c1B then none
    else if ¬ r.isEmpty then none
    else some rs

/-- Modelled from the spec: the third-party `ProtocolParser` applied to the
session buffer, reduced to its AVL outcome (`Content.AVL_Datas`).  Checks,
in spec order (§4.B): zero preamble, data-field length bounds, completeness,
data field, CRC-16/IBM against the lower 16 bits of the stored u32.
`none` stands for a parser exception; trailing bytes after one whole frame
are ignored. -/
def parseAvlPacket (b : List Nat) : Option (List RawRecord) :=
  if b.length < 12 then none
  else if beVal (b.take 4) ≠ 0 then none
  else if beVal ((b.drop 4).take 4) = 0 ∨ 65528 < beVal ((b.drop 4).take 4) then none
  else if b.length < 8 + beVal ((b.drop 4).take 4) + 4 then none
  else if crc16 ((b.drop 8).take (beVal ((b.drop 4).take 4))) ≠
      beVal ((b.drop (8 + beVal ((b.drop 4).take 4))).take 4) % 65536 then none
  else parseDataField ((b.drop 8).take (beVal ((b.drop 4).take 4)))

/-- Outbound record of the explicit-framing handler
(`src/unnamed/part_000`, lines 186–196). -/
structure NormRec where
  timestamp : Nat
  latitude : Int
  longitude : Int
  speed : Nat
  angle : Option Nat
  altitude : Option Int
  satellites : Option Nat
  odometer : Option Nat
  ignition : Option Bool
deriving DecidableEq

/-- `record.IOelement?.Elements?.[id]`. -/
def ioLookup (r : RawRecord) (id : Nat) : Option Nat :=
  r.IOelement.bind fun io => io.Elements.lookup id

/-- Record normalizer of `src/unnamed/part_000` (lines 186–196):
`records = rawRecords.map(record => ({ ... }))`. -/
def normP0 (r : RawRecord) : NormRec :=
  { timestamp := r.Timestamp
    latitude := jsOrInt (r.GPSelement.map GpsElement.Latitude) 0
    longitude := jsOrInt (r.GPSelement.map GpsElement.Longitude) 0
    speed := jsOrNat (r.GPSelement.map GpsElement.Speed) 0
    angle := jsToNullNat (r.GPSelement.map GpsElement.Angle)
    altitude := jsToNullInt (r.GPSelement.map GpsElement.Altitude)
    satellites := jsToNullNat (r.GPSelement.map GpsElement.Satellites)
    odometer := jsToNullNat (ioLookup r 199)
    ignition :=
      match ioLookup r 239 with
      | some 1 => some true
      | some 0 => some false
      | _ => none }

/-- One `{id, value}` entry of `record.ioElements` in `src/index.js`. -/
structure IoPair where
  id : Nat
  value : Nat
deriving DecidableEq

/-- A decoded AVL record as consumed by the `src/index.js` normalizer
(lines 203–211); every field access there is optional-guarded. -/
structure IdxRecord where
  timestampMs : Option Nat
  latitude : Option Int
  longitude : Option Int
  speed : Option Nat
  angle : Option Nat
  ioElements : Option (List IoPair)
deriving DecidableEq

/-- Outbound record of the `src/index.js` handler (lines 203–211). -/
structure IdxNormRec where
  timestamp : Nat
  latitude : Int
  longitude : Int
  speed : Option Nat
  angle : Option Nat
  odometer : Option Nat
  ignition : Option Bool
deriving DecidableEq

/-- `record.ioElements?.find(io => io.id === i)?.value`. -/
def idxIoValue (r : IdxRecord) (i : Nat) : Option Nat :=
  r.ioElements.bind fun l => (l.find? (fun io => io.id == i)).map IoPair.value

/-- Record normalizer of `src/index.js` (lines 203–211); `now` is the value
`Date.now()` would return during the call. -/
def normIdx (now : Nat) (r : IdxRecord) : IdxNormRec :=
  { timestamp := jsOrNat r.timestampMs now
    latitude := jsOrInt r.latitude 0
    longitude := jsOrInt r.longitude 0
    speed := jsToNullNat r.speed
    angle := jsToNullNat r.angle
    odometer := jsToNullNat (idxIoValue r 199)
    ignition := if idxIoValue r 239 = some 1 then some true else none }

/-- Externally visible effect of the read handler: a write of raw bytes to
the device socket, or a batch handed to the sink dispatcher
(`setImmediate(() => forwardToFleetee(imei, records))`). -/
inductive Out where
  | write (bytes : List Nat)
  | sink (imei : List Nat) (batch : List NormRec)
deriving DecidableEq

/-- Why the handler itself destroyed the socket; the only such path in
`src/unnamed/part_000` is the buffer cap (line 122). -/
inductive CloseKind where
  | bufferOverflow
deriving DecidableEq

/-- Per-connection state of `handleGpsConnection` in `src/unnamed/part_000`:
the closure variables `authenticatedIMEI` and `dataBuffer`, the registry
entry's counters, whether the session is still in `activeSessions`, and
whether the socket has been destroyed.  The IMEI is kept as its byte list
after Node's ascii decode (each byte masked to 7 bits). -/
structure Conn where
  auth : Option (List Nat)
  buf : List Nat
  packetsReceived : Nat
  bytesReceived : Nat
  registered : Bool
  closed : Bool
  closeReason : Option CloseKind
deriving DecidableEq

/-- State of a freshly accepted connection (lines 70–80). -/
def initConn : Conn :=
  { auth := none, buf := [], packetsReceived := 0, bytesReceived := 0
    registered := true, closed := false, closeReason := none }

/-- The framing `while` loop of `src/unnamed/part_000` (lines 131–235),
written with explicit fuel (each continuing iteration consumes at least 12
bytes, so `buf.length` fuel always suffices — see `onData`).  Branches, in
source order: the login branch (lines 136–153; note the fall-through when
the announced length is not 15), then the AVL branch (lines 157–234):
preamble check that clears the buffer on failure, completeness check,
parser call, acknowledgement and sink enqueue only when records are
present, unconditional consumption of the frame. -/
def loopF : Nat → Conn → Conn × List Out
  | 0, c => (c, [])
  | fuel + 1, c =>
    if c.buf.isEmpty then (c, [])
    else if c.auth = none ∧ 17 ≤ c.buf.length ∧ beVal (c.buf.take 2) = 15 then
      let imei := ((c.buf.take 17).drop 2).map (· % 128)
      let r := loopF fuel { c with auth := some imei
                                   packetsReceived := c.packetsReceived + 1
                                   buf := c.buf.drop 17 }
      (r.1, Out.write [1] :: r.2)
    else
      match c.auth with
      | none => (c, [])
      | some imei =>
        if c.buf.length < 8 then (c, [])
        else if beVal (c.buf.take 4) ≠ 0 then ({ c with buf := [] }, [])
        else
          let dl := beVal ((c.buf.drop 4).take 4)
          let total := 8 + dl + 4
          if c.buf.length < total then (c, [])
          else
            match parseAvlPacket c.buf with
            | some rs =>
              if rs.isEmpty then loopF fuel { c with buf := c.buf.drop total }
              else
                let r := loopF fuel { c with packetsReceived := c.packetsReceived + 1
                                             buf := c.buf.drop total }
                (r.1, Out.sink imei (rs.map normP0) :: Out.write (beBytes 4 rs.length) :: r.2)
            | none => loopF fuel { c with buf := c.buf.drop total }

/-- The `socket.on('data', ...)` handler of `src/unnamed/part_000`
(lines 109–239): drop the event if the socket is gone, append the chunk,
update counters, destroy on buffer overflow (the close event's `cleanup`
then clears the buffer and removes the registry entry), otherwise run the
framing loop. -/
def onData (c : Conn) (chunk : List Nat) : Conn × List Out :=
  if c.closed then (c, [])
  else if ¬ c.registered then (c, [])
  else
    let buf := c.buf ++ chunk
    let c' := { c with buf := buf, bytesReceived := c.bytesReceived + chunk.length }
    if 64 * 1024 < buf.length then
      ({ c' with closed := true, registered := false, buf := []
                 closeReason := some CloseKind.bufferOverflow }, [])
    else loopF buf.length c'

/-- Deliver a sequence of chunks, concatenating the emitted outputs. -/
def runChunks : Conn → List (List Nat) → Conn × List Out
  | c, [] => (c, [])
  | c, ch :: chs =>
    let r := onData c ch
    let r2 := runChunks r.1 chs
    (r2.1, r.2 ++ r2.2)

/-- Deliver a byte stream one byte per chunk. -/
def feedBytes (c : Conn) (s : List Nat) : Conn × List Out :=
  runChunks c (s.map fun b => [b])

/-- Deliver a byte stream as a single chunk. -/
def feedOnce (c : Conn) (s : List Nat) : Conn × List Out := onData c s

/-- Connection states reachable from a fresh connection by data events. -/
inductive Reachable : Conn → Prop where
  | init : Reachable initConn
  | step (c : Conn) (chunk : List Nat) : Reachable c → Reachable (onData c chunk).1

/-- Modelled from the spec: source data for one Codec 8 AVL record when
building concrete test frames (§3, §8 round-trip encoder); I/O pairs are
listed per width block. -/
structure EncRecord where
  ts : Nat
  prio : Nat
  lon : Nat
  lat : Nat
  alt : Nat
  angle : Nat
  sats : Nat
  speed : Nat
  evt : Nat
  io1 : List (Nat × Nat)
  io2 : List (Nat × Nat)
  io4 : List (Nat × Nat)
  io8 : List (Nat × Nat)

/-- Encode the (id, value) pairs of one Codec 8 fixed-width block. -/
def encodePairs (valW : Nat) (ps : List (Nat × Nat)) : List Nat :=
  ps.foldr (fun p acc => beBytes 1 p.1 ++ beBytes valW p.2 ++ acc) []

/-- Modelled from the spec: wire bytes of one Codec 8 AVL record (§3). -/
def encodeRecord8 (r : EncRecord) : List Nat :=
  beBytes 8 r.ts ++ beBytes 1 r.prio ++ beBytes 4 r.lon ++ beBytes 4 r.lat ++
  beBytes 2 r.alt ++ beBytes 2 r.angle ++ beBytes 1 r.sats ++ beBytes 2 r.speed ++
  beBytes 1 r.evt ++
  beBytes 1 (r.io1.length + r.io2.length + r.io4.length + r.io8.length) ++
  beBytes 1 r.io1.length ++ encodePairs 1 r.io1 ++
  beBytes 1 r.io2.length ++ encodePairs 2 r.io2 ++
  beBytes 1 r.io4.length ++ encodePairs 4 r.io4 ++
  beBytes 1 r.io8.length ++ encodePairs 8 r.io8

/-- Modelled from the spec: a whole Codec 8 AVL frame — zero preamble,
data-field length, data field, CRC-16/IBM stored as a big-endian u32 (§3). -/
def encodeAvl8 (rs : List EncRecord) : List Nat :=
  let data := beBytes 1 8 ++ beBytes 1 rs.length ++ (rs.map encodeRecord8).flatten ++
    beBytes 1 rs.length
  [0, 0, 0, 0] ++ beBytes 4 data.length ++ data ++ beBytes 4 (crc16 data)

/-- ASCII digits of the IMEI of spec scenario 1 (356307042441013). -/
def imeiBytes : List Nat := [51, 53, 54, 51, 48, 55, 48, 52, 50, 52, 52, 49, 48, 49, 51]

/-- A well-formed 17-byte login frame. -/
def loginChunk : List Nat := [0, 15] ++ imeiBytes

/-- A concrete AVL record with ignition on (I/O id 239 = 1) and an odometer
value (I/O id 199). -/
def sampleEnc : EncRecord :=
  { ts := 1560000000000, prio := 1, lon := 253108960, lat := 34188760
    alt := 120, angle := 77, sats := 9, speed := 63, evt := 0
    io1 := [(239, 1)], io2 := [], io4 := [(199, 12345)], io8 := [] }

/-- A complete, CRC-correct single-record Codec 8 frame. -/
def sampleFrame : List Nat := encodeAvl8 [sampleEnc]

/-- The decoded form of `sampleFrame`'s single record. -/
def sampleRaw : RawRecord :=
  { Timestamp := 1560000000000
    Priority := 1
    GPSelement := some
      { Longitude := 253108960, Latitude := 34188760, Altitude := 120
        Angle := 77, Satellites := 9, Speed := 63 }
    IOelement := some
      { EventID := 0, ElementCount := 2, Elements := [(239, 1), (199, 12345)] } }

/-- `sampleFrame` with its final CRC byte corrupted. -/
def badCrcFrame : List Nat :=
  sampleFrame.dropLast ++ [((sampleFrame.getLast?).getD 0 + 1) % 256]

/-- A CRC-correct Codec 8 frame announcing zero records. -/
def zeroRecFrame : List Nat := encodeAvl8 []

/-- An authenticated session with an empty buffer, as produced by delivering
`loginChunk` to a fresh connection. -/
def authConn : Conn :=
  { auth := some imeiBytes, buf := [], packetsReceived := 1, bytesReceived := 17
    registered := true, closed := false, closeReason := none }

/-- The wire size of the AVL frame announced by a buffer's length field:
preamble and length (8) plus the data field plus the CRC u32 (4). -/
def frameLen (f : List Nat) : Nat := 8 + beVal ((f.drop 4).take 4) + 4

/-- `f` is exactly one whole AVL frame that the modelled parser decodes to
the record list `rs`. -/
def AcceptedFrame (f : List Nat) (rs : List RawRecord) : Prop :=
  parseAvlPacket f = some rs ∧ f.length = frameLen f

/-- The outputs the handler emits for one consumed frame decoding to `rs`:
nothing when the record list is empty, otherwise the sink enqueue followed
by the 4-byte record-count acknowledgement. -/
def frameOuts (imei : List Nat) (rs : List RawRecord) : List Out :=
  if rs.isEmpty then []
  else [Out.sink imei (rs.map normP0), Out.write (beBytes 4 rs.length)]

/-- `packetsReceived` increment contributed by one consumed frame. -/
def prInc (rs : List RawRecord) : Nat := if rs.isEmpty then 0 else 1

/-- Total `packetsReceived` increment of a run of consumed frames. -/
def prIncs (rss : List (List RawRecord)) : Nat := (rss.map prInc).sum

/-- Concatenated outputs of a run of consumed frames. -/
def batchOuts (imei : List Nat) (rss : List (List RawRecord)) : List Out :=
  (rss.map (frameOuts imei)).flatten

/-- A concrete record in the shape consumed by the `src/index.js`
normalizer, with every field present and truthy. -/
def idxSample : IdxRecord :=
  { timestampMs := some 1560000000000, latitude := some 34188760
    longitude := some 253108960, speed := some 63, angle := some 77
    ioElements := some [{ id := 239, value := 1 }, { id := 199, value := 12345 }] }

/-- A concrete record with speed 0, ignition element 0, odometer element 0. -/
def idxZeroRecord : IdxRecord :=
  { timestampMs := some 7, latitude := some 1, longitude := some 1
    speed := some 0, angle := none
    ioElements := some [{ id := 239, value := 0 }, { id := 199, value := 0 }] }

/-- A concrete record with no timestamp at all. -/
def idxNoTsRecord : IdxRecord :=
  { timestampMs := none, latitude := some 1, longitude := some 1
    speed := some 5, angle := none, ioElements := none }

/-- A concrete parsed record whose odometer element (id 199) is 0. -/
def rawZeroOdo : RawRecord :=
  { Timestamp := 1, Priority := 0, GPSelement := none
    IOelement := some { EventID := 0, ElementCount := 1, Elements := [(199, 0)] } }

/-! ## Structural lemmas about the framing loop -/

theorem loopF_nil (fuel : Nat) (c : Conn) (h : c.buf = []) : loopF fuel c = (c, []) := by
  cases fuel <;> simp [loopF, h]

/-- The framing loop never grows the buffer, never touches the socket
lifecycle fields or the byte counter, and only installs 15-byte IMEIs. -/
theorem loopF_invariant (fuel : Nat) (c : Conn) :
    (loopF fuel c).1.buf.length ≤ c.buf.length ∧
    (loopF fuel c).1.closed = c.closed ∧
    (loopF fuel c).1.registered = c.registered ∧
    (loopF fuel c).1.closeReason = c.closeReason ∧
    (loopF fuel c).1.bytesReceived = c.bytesReceived ∧
    (∀ i, (loopF fuel c).1.auth = some i → c.auth = some i ∨ i.length = 15) := by
  induction fuel generalizing c with
  | zero => exact ⟨le_refl _, rfl, rfl, rfl, rfl, fun i hi => Or.inl hi⟩
  | succ n ih =>
    rw [loopF]
    split
    · exact ⟨le_refl _, rfl, rfl, rfl, rfl, fun i hi => Or.inl hi⟩
    · split
      · rename_i hlogin
        obtain ⟨-, hlen, -⟩ := hlogin
        obtain ⟨h1, h2, h3, h4, h5, h6⟩ :=
          ih { c with auth := some (((c.buf.take 17).drop 2).map (· % 128))
                      packetsReceived := c.packetsReceived + 1
                      buf := c.buf.drop 17 }
        refine ⟨?_, h2, h3, h4, h5, ?_⟩
        · exact le_trans h1 (by simp)
        · intro i hi
          rcases h6 i hi with h | h
          · right
            have hx : ((c.buf.take 17).drop 2).map (· % 128) = i := Option.some.inj h
            subst hx
            simp only [List.length_map, List.length_drop, List.length_take]
            omega
          · exact Or.inr h
      · split
        · exact ⟨le_refl _, rfl, rfl, rfl, rfl, fun i hi => Or.inl hi⟩
        · rename_i imei heq
          split
          · exact ⟨le_refl _, rfl, rfl, rfl, rfl, fun i hi => Or.inl hi⟩
          · split
            · exact ⟨by simp, rfl, rfl, rfl, rfl, fun i hi => Or.inl hi⟩
            · dsimp only
              split
              · exact ⟨le_refl _, rfl, rfl, rfl, rfl, fun i hi => Or.inl hi⟩
              · split
                · split
                  · obtain ⟨h1, h2, h3, h4, h5, h6⟩ :=
                      ih { c with buf := c.buf.drop (8 + beVal ((c.buf.drop 4).take 4) + 4) }
                    exact ⟨le_trans h1 (by simp), h2, h3, h4, h5, fun i hi => h6 i hi⟩
                  · obtain ⟨h1, h2, h3, h4, h5, h6⟩ :=
                      ih { c with packetsReceived := c.packetsReceived + 1
                                  buf := c.buf.drop (8 + beVal ((c.buf.drop 4).take 4) + 4) }
                    exact ⟨le_trans h1 (by simp), h2, h3, h4, h5, fun i hi => h6 i hi⟩
                · obtain ⟨h1, h2, h3, h4, h5, h6⟩ :=
                    ih { c with buf := c.buf.drop (8 + beVal ((c.buf.drop 4).take 4) + 4) }
                  exact ⟨le_trans h1 (by simp), h2, h3, h4, h5, fun i hi => h6 i hi⟩

/-- Every reachable connection state keeps its buffer within the 64 KiB cap
and, once authenticated, stores a 15-character IMEI. -/
theorem reachable_invariant (c : Conn) (h : Reachable c) :
    c.buf.length ≤ 65536 ∧ ∀ i, c.auth = some i → i.length = 15 := by
  induction h with
  | init => exact ⟨by simp [initConn], by simp [initConn]⟩
  | step c ch hr ih =>
    unfold onData
    split
    · exact ih
    · split
      · exact ih
      · dsimp only
        split
        · exact ⟨by simp, fun i hi => ih.2 i hi⟩
        · rename_i hcap
          obtain ⟨h1, -, -, -, -, h6⟩ :=
            loopF_invariant (c.buf ++ ch).length
              { c with buf := c.buf ++ ch, bytesReceived := c.bytesReceived + ch.length }
          refine ⟨le_trans h1 ?_, fun i hi => ?_⟩
          · show (c.buf ++ ch).length ≤ 65536
            omega
          · rcases h6 i hi with hh | hh
            · exact ih.2 i hh
            · exact hh

/-- A successful parse implies a zero preamble, an in-range data-field
length, and at least one whole frame's worth of bytes. -/
theorem parseAvlPacket_some (b : List Nat) (rs : List RawRecord)
    (h : parseAvlPacket b = some rs) :
    beVal (b.take 4) = 0 ∧
    beVal ((b.drop 4).take 4) ≠ 0 ∧
    beVal ((b.drop 4).take 4) ≤ 65528 ∧
    8 + beVal ((b.drop 4).take 4) + 4 ≤ b.length := by
  unfold parseAvlPacket at h
  split_ifs at h with h1 h2 h3 h4 h5
  push_neg at h2 h3 h4
  exact ⟨h2, h3.1, h3.2, by omega⟩

/-- A CRC-16 mismatch between the data field and the lower 16 bits of the
stored u32 makes the modelled parser fail. -/
theorem parseAvlPacket_crc_mismatch (b : List Nat)
    (h : crc16 ((b.drop 8).take (beVal ((b.drop 4).take 4))) ≠
        beVal ((b.drop (8 + beVal ((b.drop 4).take 4))).take 4) % 65536) :
    parseAvlPacket b = none := by
  unfold parseAvlPacket
  split_ifs with h1 h2 h3 h4
  all_goals rfl

/-- The parser only reads within the first whole frame: bytes after
`8 + data_length + 4` never change the parse. -/
theorem parseAvlPacket_append (f rest : List Nat)
    (hflen : f.length = 8 + beVal ((f.drop 4).take 4) + 4) :
    parseAvlPacket (f ++ rest) = parseAvlPacket f := by
  have ht4 : (f ++ rest).take 4 = f.take 4 :=
    List.take_append_of_le_length (by omega)
  have hdl : ((f ++ rest).drop 4).take 4 = (f.drop 4).take 4 := by
    rw [List.drop_append_of_le_length (by omega)]
    exact List.take_append_of_le_length (by rw [List.length_drop]; omega)
  have hdata : ((f ++ rest).drop 8).take (beVal ((f.drop 4).take 4)) =
      (f.drop 8).take (beVal ((f.drop 4).take 4)) := by
    rw [List.drop_append_of_le_length (by omega)]
    exact List.take_append_of_le_length (by rw [List.length_drop]; omega)
  have hstored : ((f ++ rest).drop (8 + beVal ((f.drop 4).take 4))).take 4 =
      (f.drop (8 + beVal ((f.drop 4).take 4))).take 4 := by
    rw [List.drop_append_of_le_length (by omega)]
    exact List.take_append_of_le_length (by rw [List.length_drop]; omega)
  have h12a : ¬ ((f ++ rest).length < 12) := by
    rw [List.length_append]; omega
  have h12b : ¬ (f.length < 12) := by omega
  have hca : ¬ ((f ++ rest).length < 8 + beVal ((f.drop 4).take 4) + 4) := by
    rw [List.length_append]; omega
  have hcb : ¬ (f.length < 8 + beVal ((f.drop 4).take 4) + 4) := by omega
  unfold parseAvlPacket
  rw [ht4, hdl, hdata, hstored, if_neg h12a, if_neg h12b, if_neg hca, if_neg hcb]

/-- Unfolding of the framing loop when one complete AVL frame sits at the
head of an authenticated session's buffer: the frame is consumed whole;
acknowledgement and sink enqueue happen exactly when the parse yields a
non-empty record list. -/
theorem loopF_avl_step (fuel : Nat) (c : Conn) (imei f rest : List Nat)
    (hauth : c.auth = some imei) (hbuf : c.buf = f ++ rest)
    (hpre : beVal (f.take 4) = 0)
    (hflen : f.length = 8 + beVal ((f.drop 4).take 4) + 4) :
    loopF (fuel + 1) c =
      match parseAvlPacket f with
      | some rs =>
        if rs.isEmpty then loopF fuel { c with buf := rest }
        else
          ((loopF fuel { c with packetsReceived := c.packetsReceived + 1
                                buf := rest }).1,
            Out.sink imei (rs.map normP0) ::
              Out.write (beBytes 4 rs.length) ::
              (loopF fuel { c with packetsReceived := c.packetsReceived + 1
                                   buf := rest }).2)
      | none => loopF fuel { c with buf := rest } := by
  have hfne : f ≠ [] := by
    intro hf
    rw [hf] at hflen
    simp [beVal] at hflen
  have hne : ¬ ((f ++ rest).isEmpty = true) := by
    simp only [List.isEmpty_iff, List.append_eq_nil]
    rintro ⟨h, -⟩
    exact hfne h
  have hlogin : ¬ (c.auth = none ∧ 17 ≤ c.buf.length ∧ beVal (c.buf.take 2) = 15) := by
    rw [hauth]; simp
  have hdl : ((f ++ rest).drop 4).take 4 = (f.drop 4).take 4 := by
    rw [List.drop_append_of_le_length (by omega)]
    exact List.take_append_of_le_length (by rw [List.length_drop]; omega)
  have h8 : ¬ ((f ++ rest).length < 8) := by
    rw [List.length_append]; omega
  have hpre' : ¬ (beVal ((f ++ rest).take 4) ≠ 0) := by
    rw [List.take_append_of_le_length (by omega), hpre]
    simp
  have hcompl : ¬ ((f ++ rest).length < 8 + beVal (((f ++ rest).drop 4).take 4) + 4) := by
    rw [hdl, List.length_append]; omega
  have hdrop : (f ++ rest).drop (8 + beVal (((f ++ rest).drop 4).take 4) + 4) = rest := by
    rw [hdl, ← hflen, List.drop_left]
  rw [loopF]
  simp only [hbuf, hne, if_false, hlogin, if_neg hne, if_neg hlogin, hauth]
  rw [if_neg h8, if_neg hpre']
  rw [if_neg hcompl, hdrop, parseAvlPacket_append f rest hflen]
  rw [if_neg (by simp : ¬ (false = true))]
  rw [if_neg (by simp :
    ¬ (some imei = none ∧ 17 ≤ (f ++ rest).length ∧ beVal ((f ++ rest).take 2) = 15))]

/-- An unauthenticated session whose buffer cannot fire the login branch is
left untouched by the framing loop. -/
theorem loopF_unauth_stuck (fuel : Nat) (c : Conn) (hauth : c.auth = none)
    (h : beVal (c.buf.take 2) = 15 → c.buf.length < 17) :
    loopF fuel c = (c, []) := by
  cases fuel with
  | zero => rfl
  | succ n =>
    rw [loopF]
    split
    · rfl
    · split
      · rename_i hl
        obtain ⟨-, h17, h15⟩ := hl
        exact absurd (h h15) (by omega)
      · split
        · rfl
        · rename_i imei heq
          rw [hauth] at heq
          exact absurd heq (by simp)

/-- Unfolding of the data handler on an open, registered session when the
appended chunk stays within the cap. -/
theorem onData_open (c : Conn) (chunk : List Nat) (hclosed : c.closed = false)
    (hreg : c.registered = true) (hcap : (c.buf ++ chunk).length ≤ 65536) :
    onData c chunk = loopF (c.buf ++ chunk).length
      { c with buf := c.buf ++ chunk, bytesReceived := c.bytesReceived + chunk.length } := by
  unfold onData
  rw [hclosed, hreg]
  rw [if_neg (by simp : ¬ (false = true))]
  rw [if_neg (by simp : ¬ ¬ (true = true))]
  rw [if_neg (by omega : ¬ (64 * 1024 < (c.buf ++ chunk).length))]

/-- Unfolding of the data handler on an open, registered session when the
appended chunk exceeds the cap: the socket is destroyed and the close
event's `cleanup` removes the session and clears the buffer. -/
theorem onData_overflow (c : Conn) (chunk : List Nat) (hclosed : c.closed = false)
    (hreg : c.registered = true) (hcap : 65536 < (c.buf ++ chunk).length) :
    onData c chunk =
      ({ c with buf := [], bytesReceived := c.bytesReceived + chunk.length
                closed := true, registered := false
                closeReason := some CloseKind.bufferOverflow }, []) := by
  unfold onData
  rw [hclosed, hreg]
  rw [if_neg (by simp : ¬ (false = true))]
  rw [if_neg (by simp : ¬ ¬ (true = true))]
  rw [if_pos (by omega : 64 * 1024 < (c.buf ++ chunk).length)]

/-! ## Core behaviours backing the claims -/

/-- C1 (amended core): delivering exactly one complete AVL frame that the
parser accepts with a non-empty record list to an authenticated session
with an empty buffer yields exactly one socket write, the 4-byte big-endian
encoding of the record count, preceded by the sink enqueue of the
normalized batch. -/
theorem ack_counts_records (c : Conn) (imei f : List Nat) (rs : List RawRecord)
    (hauth : c.auth = some imei) (hclosed : c.closed = false)
    (hreg : c.registered = true) (hbuf : c.buf = []) (hcap : f.length ≤ 65536)
    (hparse : parseAvlPacket f = some rs) (hne : rs ≠ [])
    (hflen : f.length = 8 + beVal ((f.drop 4).take 4) + 4) :
    onData c f =
      ({ c with buf := [], packetsReceived := c.packetsReceived + 1
                bytesReceived := c.bytesReceived + f.length },
        [Out.sink imei (rs.map normP0), Out.write (beBytes 4 rs.length)]) := by
  have hpre := (parseAvlPacket_some f rs hparse).1
  rw [onData_open c f hclosed hreg (by rw [hbuf]; simpa)]
  simp only [hbuf, List.nil_append]
  obtain ⟨n, hn⟩ : ∃ n, f.length = n + 1 := ⟨f.length - 1, by omega⟩
  rw [hn]
  rw [loopF_avl_step n { c with buf := f, bytesReceived := c.bytesReceived + (n + 1) }
    imei f [] hauth (by simp) hpre hflen]
  rw [hparse]
  simp only [List.isEmpty_iff, hne, if_false]
  rw [loopF_nil n _ rfl]

/-- C2 (amended core): an AVL frame whose stored CRC does not match the
CRC-16/IBM of its data field is consumed whole with no acknowledgement, no
sink enqueue, and no socket close — the connection simply keeps reading. -/
theorem crc_mismatch_frame_dropped (c : Conn) (imei f : List Nat)
    (hauth : c.auth = some imei) (hclosed : c.closed = false)
    (hreg : c.registered = true) (hbuf : c.buf = []) (hcap : f.length ≤ 65536)
    (hpre : beVal (f.take 4) = 0)
    (hflen : f.length = 8 + beVal ((f.drop 4).take 4) + 4)
    (hcrc : crc16 ((f.drop 8).take (beVal ((f.drop 4).take 4))) ≠
        beVal ((f.drop (8 + beVal ((f.drop 4).take 4))).take 4) % 65536) :
    onData c f =
      ({ c with buf := [], bytesReceived := c.bytesReceived + f.length }, []) := by
  rw [onData_open c f hclosed hreg (by rw [hbuf]; simpa)]
  simp only [hbuf, List.nil_append]
  obtain ⟨n, hn⟩ : ∃ n, f.length = n + 1 := ⟨f.length - 1, by omega⟩
  rw [hn]
  rw [loopF_avl_step n { c with buf := f, bytesReceived := c.bytesReceived + (n + 1) }
    imei f [] hauth (by simp) hpre hflen]
  rw [parseAvlPacket_crc_mismatch f hcrc]
  rw [loopF_nil n _ rfl]

/-- On a bad preamble the framing loop clears the whole buffer and stops,
touching nothing else. -/
theorem loopF_bad_preamble (fuel : Nat) (c : Conn) (imei : List Nat)
    (hauth : c.auth = some imei) (h8 : 8 ≤ c.buf.length)
    (hpre : beVal (c.buf.take 4) ≠ 0) :
    loopF (fuel + 1) c = ({ c with buf := [] }, []) := by
  have hne : ¬ (c.buf.isEmpty = true) := by
    simp only [List.isEmpty_iff]
    intro h
    rw [h] at h8
    simp at h8
  have hlogin : ¬ (c.auth = none ∧ 17 ≤ c.buf.length ∧ beVal (c.buf.take 2) = 15) := by
    rw [hauth]; simp
  rw [loopF, if_neg hne, if_neg hlogin]
  simp only [hauth]
  rw [if_neg (by omega : ¬ (c.buf.length < 8)), if_pos hpre]

/-- C6 (amended core): an authenticated session receiving at least 8 bytes
whose first four are not all zero clears its whole buffer and keeps the
connection open — no fault is raised and the socket is not destroyed. -/
theorem bad_preamble_clears_buffer (c : Conn) (imei chunk : List Nat)
    (hauth : c.auth = some imei) (hclosed : c.closed = false)
    (hreg : c.registered = true) (hbuf : c.buf = []) (h8 : 8 ≤ chunk.length)
    (hcap : chunk.length ≤ 65536) (hpre : beVal (chunk.take 4) ≠ 0) :
    onData c chunk =
      ({ c with buf := [], bytesReceived := c.bytesReceived + chunk.length }, []) := by
  rw [onData_open c chunk hclosed hreg (by rw [hbuf]; simpa)]
  simp only [hbuf, List.nil_append]
  obtain ⟨n, hn⟩ : ∃ n, chunk.length = n + 1 := ⟨chunk.length - 1, by omega⟩
  rw [hn]
  exact loopF_bad_preamble n
    { c with buf := chunk, bytesReceived := c.bytesReceived + (n + 1) } imei hauth h8 hpre

/-- C3 (amended core): an unauthenticated session whose first two buffered
bytes announce a length other than 15 consumes nothing and emits nothing —
no fault, no close, and the session stays registered. -/
theorem bad_login_length_ignored (chunk : List Nat) (hcap : chunk.length ≤ 65536)
    (hlen : beVal (chunk.take 2) ≠ 15) :
    onData initConn chunk =
      ({ initConn with buf := chunk, bytesReceived := chunk.length }, []) := by
  rw [onData_open initConn chunk rfl rfl (by simpa [initConn])]
  rw [loopF_unauth_stuck (initConn.buf ++ chunk).length
    { initConn with buf := initConn.buf ++ chunk
                    bytesReceived := initConn.bytesReceived + chunk.length }
    rfl (fun h => absurd (by simpa [initConn] using h) hlen)]
  simp [initConn]

/-- The login branch: an unauthenticated session whose buffer starts with a
17-byte frame announcing length 15 authenticates with the ascii decode of
the payload (bytes masked to 7 bits), acks `0x01`, bumps the packet
counter, and continues on the rest of the buffer. -/
theorem loopF_login (fuel : Nat) (c : Conn) (payload rest : List Nat)
    (hauth : c.auth = none) (hbuf : c.buf = [0, 15] ++ payload ++ rest)
    (hp : payload.length = 15) :
    loopF (fuel + 1) c =
      ((loopF fuel { c with auth := some (payload.map (· % 128))
                            packetsReceived := c.packetsReceived + 1
                            buf := rest }).1,
        Out.write [1] ::
          (loopF fuel { c with auth := some (payload.map (· % 128))
                               packetsReceived := c.packetsReceived + 1
                               buf := rest }).2) := by
  have htake15 : (payload ++ rest).take 15 = payload := by
    rw [List.take_append_of_le_length (by omega)]
    rw [← hp, List.take_length]
  have hne : ¬ (c.buf.isEmpty = true) := by simp [hbuf]
  have hcond : c.auth = none ∧ 17 ≤ c.buf.length ∧ beVal (c.buf.take 2) = 15 := by
    refine ⟨hauth, by rw [hbuf]; simp; omega, ?_⟩
    rw [hbuf]
    rfl
  have himei : (c.buf.take 17).drop 2 = payload := by
    rw [hbuf]
    show ((payload ++ rest).take 15) = payload
    exact htake15
  have hdrop : c.buf.drop 17 = rest := by
    rw [hbuf]
    show (payload ++ rest).drop 15 = rest
    rw [List.drop_append_of_le_length (by omega), ← hp, List.drop_length,
      List.nil_append]
  rw [loopF, if_neg hne, if_pos hcond, himei, hdrop]

/-- A 17-byte login frame delivered alone to an unauthenticated session
with an empty buffer: any 15 payload bytes authenticate. -/
theorem onData_login (c : Conn) (payload : List Nat) (hauth : c.auth = none)
    (hclosed : c.closed = false) (hreg : c.registered = true) (hbuf : c.buf = [])
    (hp : payload.length = 15) :
    onData c ([0, 15] ++ payload) =
      ({ c with auth := some (payload.map (· % 128))
                buf := []
                packetsReceived := c.packetsReceived + 1
                bytesReceived := c.bytesReceived + ([0, 15] ++ payload).length },
        [Out.write [1]]) := by
  rw [onData_open c ([0, 15] ++ payload) hclosed hreg (by rw [hbuf]; simp [hp])]
  simp only [hbuf, List.nil_append]
  obtain ⟨n, hn⟩ : ∃ n, ([0, 15] ++ payload).length = n + 1 :=
    ⟨([0, 15] ++ payload).length - 1, by simp [hp]⟩
  rw [hn]
  rw [loopF_login n
    { c with buf := [0, 15] ++ payload, bytesReceived := c.bytesReceived + (n + 1) }
    payload [] hauth (by simp) hp]
  rw [loopF_nil n _ rfl]

/-- C4 (amended): in every reachable state an authenticated session's IMEI
is present with exactly 15 characters; but the 15 payload bytes are never
validated as digits — any 15 bytes authenticate the session with their
7-bit-masked ascii decode. -/
theorem auth_imei_fifteen_any_bytes :
    (∀ c, Reachable c → ∀ i, c.auth = some i → i.length = 15) ∧
    (∀ payload : List Nat, payload.length = 15 →
      (onData initConn ([0, 15] ++ payload)).1.auth =
        some (payload.map (· % 128)) ∧
      (onData initConn ([0, 15] ++ payload)).2 = [Out.write [1]]) := by
  constructor
  · exact fun c h => (reachable_invariant c h).2
  · intro payload hp
    rw [onData_login initConn payload rfl rfl rfl rfl hp]
    exact ⟨rfl, rfl⟩

/-- C5: the read buffer never exceeds 65,536 bytes in any reachable state,
and any arrival that would exceed the cap closes the connection with the
buffer-overflow kind (and deregisters the session). -/
theorem buffer_cap_invariant :
    (∀ c, Reachable c → c.buf.length ≤ 65536) ∧
    (∀ (c : Conn) (chunk : List Nat), c.closed = false → c.registered = true →
      65536 < c.buf.length + chunk.length →
      (onData c chunk).1.closed = true ∧
      (onData c chunk).1.closeReason = some CloseKind.bufferOverflow) := by
  constructor
  · exact fun c h => (reachable_invariant c h).1
  · intro c chunk hclosed hreg hcap
    rw [onData_overflow c chunk hclosed hreg (by rw [List.length_append]; omega)]
    exact ⟨rfl, rfl⟩

/-! ## Normalizer behaviour -/

/-- C8 (amended): the part_000 normalizer keeps the decoded speed (0 when
the GPS element is absent) and maps I/O 239 to the tri-state ignition; the
index.js normalizer instead nulls a zero or absent speed, passes a nonzero
speed through, and its ignition is true iff I/O 239 equals 1 and null in
every other case — never false. -/
theorem speed_ignition_normalization :
    (∀ r : RawRecord,
      (normP0 r).speed = (r.GPSelement.map GpsElement.Speed).getD 0 ∧
      ((normP0 r).ignition = some true ↔ ioLookup r 239 = some 1) ∧
      ((normP0 r).ignition = some false ↔ ioLookup r 239 = some 0) ∧
      (∀ v, ioLookup r 239 = some v → v ≠ 0 → v ≠ 1 → (normP0 r).ignition = none) ∧
      (ioLookup r 239 = none → (normP0 r).ignition = none)) ∧
    (∀ (now : Nat) (r : IdxRecord),
      ((normIdx now r).speed = none ↔ (r.speed = none ∨ r.speed = some 0)) ∧
      (∀ v, r.speed = some v → v ≠ 0 → (normIdx now r).speed = some v) ∧
      ((normIdx now r).ignition = some true ↔ idxIoValue r 239 = some 1) ∧
      (normIdx now r).ignition ≠ some false) := by
  constructor
  · intro r
    refine ⟨?_, ?_, ?_, ?_, ?_⟩
    · cases h : r.GPSelement with
      | none => simp [normP0, jsOrNat, h]
      | some g =>
        cases hv : g.Speed with
        | zero => simp [normP0, jsOrNat, h, hv]
        | succ k => simp [normP0, jsOrNat, h, hv]
    · cases h : ioLookup r 239 with
      | none => simp [normP0, h]
      | some v =>
        match v with
        | 0 => simp [normP0, h]
        | 1 => simp [normP0, h]
        | (k + 2) => simp [normP0, h]
    · cases h : ioLookup r 239 with
      | none => simp [normP0, h]
      | some v =>
        match v with
        | 0 => simp [normP0, h]
        | 1 => simp [normP0, h]
        | (k + 2) => simp [normP0, h]
    · intro v hv h0 h1
      match v, h0, h1 with
      | (k + 2), _, _ => simp [normP0, hv]
      | 1, _, h1 => exact absurd rfl h1
      | 0, h0, _ => exact absurd rfl h0
    · intro h
      simp [normP0, h]
  · intro now r
    refine ⟨?_, ?_, ?_, ?_⟩
    · cases h : r.speed with
      | none => simp [normIdx, jsToNullNat, h]
      | some v =>
        cases v with
        | zero => simp [normIdx, jsToNullNat, h]
        | succ k => simp [normIdx, jsToNullNat, h]
    · intro v hv h0
      simp [normIdx, jsToNullNat, hv, h0]
    · by_cases h : idxIoValue r 239 = some 1
      · simp [normIdx, h]
      · simp [normIdx, h]
    · by_cases h : idxIoValue r 239 = some 1
      · simp [normIdx, h]
      · simp [normIdx, h]

/-- C9 (amended): the index.js normalizer does not depend on the ambient
clock as long as the decoded record carries a present, non-zero
`timestampMs`; the part_000 normalizer takes no ambient input at all. -/
theorem normalizer_determinism (now now' : Nat) (r : IdxRecord)
    (h0 : r.timestampMs ≠ none) (h1 : r.timestampMs ≠ some 0) :
    normIdx now r = normIdx now' r := by
  cases h : r.timestampMs with
  | none => exact absurd h h0
  | some v =>
    cases v with
    | zero => exact absurd h h1
    | succ k => simp [normIdx, jsOrNat, h]

/-- C10: in both normalizers a zero value of I/O element 199 produces a
null odometer, and a numeric odometer appears only when the element is
present with a non-zero value. -/
theorem odometer_truthy_projection :
    (∀ r : RawRecord,
      (ioLookup r 199 = some 0 → (normP0 r).odometer = none) ∧
      ∀ v, (normP0 r).odometer = some v → ioLookup r 199 = some v ∧ v ≠ 0) ∧
    (∀ (now : Nat) (r : IdxRecord),
      (idxIoValue r 199 = some 0 → (normIdx now r).odometer = none) ∧
      ∀ v, (normIdx now r).odometer = some v → idxIoValue r 199 = some v ∧ v ≠ 0) := by
  constructor
  · intro r
    constructor
    · intro h
      simp [normP0, jsToNullNat, h]
    · intro v hv
      cases h : ioLookup r 199 with
      | none => simp [normP0, jsToNullNat, h] at hv
      | some w =>
        cases w with
        | zero => simp [normP0, jsToNullNat, h] at hv
        | succ k =>
          simp [normP0, jsToNullNat, h] at hv
          exact ⟨by rw [hv], by omega⟩
  · intro now r
    constructor
    · intro h
      simp [normIdx, jsToNullNat, h]
    · intro v hv
      cases h : idxIoValue r 199 with
      | none => simp [normIdx, jsToNullNat, h] at hv
      | some w =>
        cases w with
        | zero => simp [normIdx, jsToNullNat, h] at hv
        | succ k =>
          simp [normIdx, jsToNullNat, h] at hv
          exact ⟨by rw [hv], by omega⟩

/-! ## Chunking invariance on well-formed streams -/

/-- Running the framing loop over a buffer holding a run of whole accepted
frames consumes everything, emitting each frame's outputs in order. -/
theorem loopF_frames (frames : List (List Nat)) :
    ∀ (rss : List (List RawRecord)) (fuel : Nat) (c : Conn) (imei : List Nat),
      c.auth = some imei → c.buf = frames.flatten →
      List.Forall₂ AcceptedFrame frames rss → c.buf.length ≤ fuel →
      loopF fuel c =
        ({ c with buf := [], packetsReceived := c.packetsReceived + prIncs rss },
          batchOuts imei rss) := by
  induction frames with
  | nil =>
    intro rss fuel c imei hauth hbuf hfa hfuel
    cases hfa
    rw [loopF_nil fuel c (by simpa using hbuf)]
    obtain ⟨ca, cb, cp, cby, crg, ccl, ccr⟩ := c
    simp only [List.flatten_nil] at hbuf
    subst hbuf
    simp [prIncs, batchOuts]
  | cons f fs ih =>
    intro rss fuel c imei hauth hbuf hfa hfuel
    cases hfa with
    | cons hacc hfa' =>
      rename_i rs rss'
      obtain ⟨hparse, hflen⟩ := hacc
      unfold frameLen at hflen
      have hpre := (parseAvlPacket_some f rs hparse).1
      have hlenbuf : c.buf.length = f.length + fs.flatten.length := by
        rw [hbuf]; simp
      have hf12 : 12 ≤ f.length := by omega
      obtain ⟨n, rfl⟩ : ∃ n, fuel = n + 1 := ⟨fuel - 1, by omega⟩
      rw [loopF_avl_step n c imei f fs.flatten hauth (by rw [hbuf]; simp) hpre hflen]
      rw [hparse]
      dsimp only
      by_cases hrs : rs.isEmpty
      · rw [if_pos hrs]
        rw [ih rss' n { c with buf := fs.flatten } imei hauth rfl hfa'
          (by simp only [Conn.buf]; omega)]
        simp [prIncs, prInc, batchOuts, frameOuts, hrs]
      · rw [if_neg hrs]
        rw [ih rss' n
          { c with packetsReceived := c.packetsReceived + 1, buf := fs.flatten }
          imei hauth rfl hfa' (by simp only [Conn.buf]; omega)]
        have hone : prInc rs = 1 := by simp [prInc, hrs]
        rw [show c.packetsReceived + 1 + prIncs rss' =
            c.packetsReceived + prIncs (rs :: rss') from by
          simp only [prIncs, List.map_cons, List.sum_cons, hone]
          omega]
        simp [batchOuts, frameOuts, hrs]

/-- A strict prefix of a whole valid frame leaves the framing loop waiting
for more bytes. -/
theorem loopF_incomplete (fuel : Nat) (c : Conn) (imei f : List Nat) (m : Nat)
    (hauth : c.auth = some imei) (hbuf : c.buf = f.take m) (hm : m < f.length)
    (hpre : beVal (f.take 4) = 0)
    (hflen : f.length = 8 + beVal ((f.drop 4).take 4) + 4) :
    loopF fuel c = (c, []) := by
  cases fuel with
  | zero => rfl
  | succ n =>
    rw [loopF]
    by_cases hbe : c.buf.isEmpty
    · rw [if_pos hbe]
    · rw [if_neg hbe]
      rw [if_neg (by rw [hauth]; simp)]
      simp only [hauth]
      have hblen : c.buf.length = m := by
        rw [hbuf, List.length_take]
        omega
      by_cases h8 : c.buf.length < 8
      · rw [if_pos h8]
      · rw [if_neg h8]
        have hm8 : 8 ≤ m := by omega
        have ht4 : c.buf.take 4 = f.take 4 := by
          rw [hbuf, List.take_take]
          congr 1
          omega
        rw [if_neg (by rw [ht4, hpre]; simp)]
        have hdl : (c.buf.drop 4).take 4 = (f.drop 4).take 4 := by
          rw [hbuf, List.drop_take, List.take_take]
          congr 1
          omega
        rw [hdl, if_pos (by omega : c.buf.length < 8 + beVal ((f.drop 4).take 4) + 4)]

theorem runChunks_append (c : Conn) (a b : List (List Nat)) :
    runChunks c (a ++ b) =
      ((runChunks (runChunks c a).1 b).1,
        (runChunks c a).2 ++ (runChunks (runChunks c a).1 b).2) := by
  induction a generalizing c with
  | nil => simp [runChunks]
  | cons ch a ih =>
    simp only [List.cons_append, runChunks, List.append_eq]
    rw [ih]
    simp [List.append_assoc]

theorem feedBytes_cons (c : Conn) (b : Nat) (s : List Nat) :
    feedBytes c (b :: s) =
      ((feedBytes (onData c [b]).1 s).1,
        (onData c [b]).2 ++ (feedBytes (onData c [b]).1 s).2) := by
  simp [feedBytes, runChunks]

theorem feedBytes_append (c : Conn) (s t : List Nat) :
    feedBytes c (s ++ t) =
      ((feedBytes (feedBytes c s).1 t).1,
        (feedBytes c s).2 ++ (feedBytes (feedBytes c s).1 t).2) := by
  unfold feedBytes
  rw [List.map_append, runChunks_append]

theorem feedBytes_nil (c : Conn) : feedBytes c [] = (c, []) := rfl

/-- Feeding the remaining bytes of one accepted frame one at a time to an
authenticated session already holding its prefix emits exactly the frame's
outputs and empties the buffer. -/
theorem feedBytes_frame_suffix (f : List Nat) (rs : List RawRecord)
    (hacc : AcceptedFrame f rs) (hcap : f.length ≤ 65536) :
    ∀ (s p : List Nat) (c : Conn) (imei : List Nat), s ≠ [] →
      f = p ++ s → c.auth = some imei → c.buf = p →
      c.closed = false → c.registered = true →
      feedBytes c s =
        ({ c with buf := [], packetsReceived := c.packetsReceived + prInc rs
                  bytesReceived := c.bytesReceived + s.length },
          frameOuts imei rs) := by
  have hparse := hacc.1
  have hflen : f.length = 8 + beVal ((f.drop 4).take 4) + 4 := hacc.2
  have hpre := (parseAvlPacket_some f rs hparse).1
  intro s
  induction s with
  | nil => exact fun p c imei hs => absurd rfl hs
  | cons b s' ih =>
    intro p c imei hs hf hauth hbuf hclosed hreg
    have hplen : p.length + (s'.length + 1) = f.length := by
      have := congrArg List.length hf
      simp only [List.length_append, List.length_cons] at this
      omega
    have hf12 : 12 ≤ f.length := by omega
    rw [feedBytes_cons]
    have hcap1 : (c.buf ++ [b]).length ≤ 65536 := by
      rw [hbuf]
      simp only [List.length_append, List.length_cons, List.length_nil]
      omega
    rw [onData_open c [b] hclosed hreg hcap1]
    by_cases hs' : s' = []
    · subst hs'
      have hpb : p ++ [b] = f := hf.symm
      rw [show (c.buf ++ [b]).length = p.length + 1 from by rw [hbuf]; simp]
      rw [loopF_frames [f] [rs] (p.length + 1)
        { c with buf := c.buf ++ [b], bytesReceived := c.bytesReceived + [b].length }
        imei hauth
        (by show c.buf ++ [b] = [f].flatten
            rw [hbuf, hpb]
            simp)
        (List.Forall₂.cons hacc List.Forall₂.nil)
        (by show (c.buf ++ [b]).length ≤ p.length + 1
            rw [hbuf]
            simp)]
      rw [feedBytes_nil]
      simp only [List.append_nil, Prod.mk.injEq, Conn.mk.injEq, prIncs, batchOuts,
        List.map_cons, List.map_nil, List.sum_cons, List.sum_nil, List.flatten_cons,
        List.flatten_nil, List.length_cons, List.length_nil]
      and_intros <;> first | rfl | trivial | omega | simp
    · have hs'len : s'.length ≠ 0 := fun h => hs' (List.length_eq_zero.mp h)
      have hlt : p.length + 1 < f.length := by omega
      have htake : f.take (p.length + 1) = p ++ [b] := by
        rw [hf, show p.length + 1 = p.length + 1 from rfl, List.take_append]
        simp
      rw [loopF_incomplete (c.buf ++ [b]).length
        { c with buf := c.buf ++ [b], bytesReceived := c.bytesReceived + [b].length }
        imei f (p.length + 1) hauth
        (by show c.buf ++ [b] = f.take (p.length + 1)
            rw [htake, hbuf])
        hlt hpre hflen]
      rw [ih (p ++ [b])
        { c with buf := c.buf ++ [b], bytesReceived := c.bytesReceived + [b].length }
        imei hs'
        (by rw [hf, List.append_cons])
        hauth
        (by show c.buf ++ [b] = p ++ [b]; rw [hbuf])
        hclosed hreg]
      simp only [List.nil_append, Prod.mk.injEq, Conn.mk.injEq, List.length_cons,
        List.length_nil]
      and_intros <;> first | rfl | trivial | omega | simp

/-- Feeding a run of whole accepted frames one byte at a time to an
authenticated session with an empty buffer emits each frame's outputs in
order and ends with an empty buffer. -/
theorem feedBytes_frames (frames : List (List Nat)) :
    ∀ (rss : List (List RawRecord)) (c : Conn) (imei : List Nat),
      c.auth = some imei → c.buf = [] → c.closed = false → c.registered = true →
      List.Forall₂ AcceptedFrame frames rss →
      (∀ f ∈ frames, f.length ≤ 65536) →
      feedBytes c frames.flatten =
        ({ c with buf := [], packetsReceived := c.packetsReceived + prIncs rss
                  bytesReceived := c.bytesReceived + frames.flatten.length },
          batchOuts imei rss) := by
  induction frames with
  | nil =>
    intro rss c imei hauth hbuf hclosed hreg hfa hcaps
    cases hfa
    rw [List.flatten_nil, feedBytes_nil]
    obtain ⟨ca, cb, cp, cby, crg, ccl, ccr⟩ := c
    simp only at hbuf
    subst hbuf
    simp [prIncs, batchOuts]
  | cons f fs ih =>
    intro rss c imei hauth hbuf hclosed hreg hfa hcaps
    cases hfa with
    | cons hacc hfa' =>
      rename_i rs rss'
      have hfne : f ≠ [] := by
        intro hf
        have := hacc.2
        rw [hf] at this
        simp [frameLen, beVal] at this
      rw [List.flatten_cons, feedBytes_append]
      rw [feedBytes_frame_suffix f rs hacc (hcaps f (by simp)) f [] c imei hfne
        (by simp) hauth hbuf hclosed hreg]
      rw [ih rss'
        { c with buf := [], packetsReceived := c.packetsReceived + prInc rs
                 bytesReceived := c.bytesReceived + f.length }
        imei hauth rfl hclosed hreg hfa' (fun g hg => hcaps g (by simp [hg]))]
      simp only [Prod.mk.injEq, Conn.mk.injEq, List.length_append, prIncs,
        batchOuts, List.map_cons, List.sum_cons, List.flatten_cons]
      and_intros <;> first | rfl | trivial | omega | simp

/-- Feeding the remaining bytes of a 17-byte login frame one at a time to
an unauthenticated session already holding its prefix authenticates the
session and acks `0x01`. -/
theorem feedBytes_login_suffix (payload : List Nat) (hp : payload.length = 15) :
    ∀ (s p : List Nat) (c : Conn), s ≠ [] → [0, 15] ++ payload = p ++ s →
      c.auth = none → c.buf = p → c.closed = false → c.registered = true →
      feedBytes c s =
        ({ c with auth := some (payload.map (· % 128)), buf := []
                  packetsReceived := c.packetsReceived + 1
                  bytesReceived := c.bytesReceived + s.length },
          [Out.write [1]]) := by
  have hlog : ([0, 15] ++ payload).length = 17 := by simp [hp]
  intro s
  induction s with
  | nil => exact fun p c hs => absurd rfl hs
  | cons b s' ih =>
    intro p c hs hf hauth hbuf hclosed hreg
    have hplen : p.length + (s'.length + 1) = 17 := by
      have := congrArg List.length hf
      rw [hlog] at this
      simp only [List.length_append, List.length_cons] at this
      omega
    rw [feedBytes_cons]
    have hcap1 : (c.buf ++ [b]).length ≤ 65536 := by
      rw [hbuf]
      simp only [List.length_append, List.length_cons, List.length_nil]
      omega
    rw [onData_open c [b] hclosed hreg hcap1]
    by_cases hs' : s' = []
    · subst hs'
      have hpb : p ++ [b] = [0, 15] ++ payload := hf.symm
      rw [show (c.buf ++ [b]).length = p.length + 1 from by rw [hbuf]; simp]
      have hfuel : p.length + 1 = 16 + 1 := by
        simp only [List.length_nil] at hplen
        omega
      rw [hfuel]
      rw [loopF_login 16
        { c with buf := c.buf ++ [b], bytesReceived := c.bytesReceived + [b].length }
        payload [] hauth
        (by show c.buf ++ [b] = [0, 15] ++ payload ++ []
            rw [hbuf, hpb, List.append_nil])
        hp]
      rw [loopF_nil 16 _ rfl, feedBytes_nil]
      simp only [List.append_nil, Prod.mk.injEq, Conn.mk.injEq, List.length_cons,
        List.length_nil]
      all_goals and_intros <;> first | rfl | trivial | omega | simp
    · have hs'len : s'.length ≠ 0 := fun h => hs' (List.length_eq_zero.mp h)
      have hlt : p.length + 1 < 17 := by omega
      rw [loopF_unauth_stuck (c.buf ++ [b]).length
        { c with buf := c.buf ++ [b], bytesReceived := c.bytesReceived + [b].length }
        hauth
        (by intro
            show (c.buf ++ [b]).length < 17
            rw [hbuf]
            simp only [List.length_append, List.length_cons, List.length_nil]
            omega)]
      rw [ih (p ++ [b])
        { c with buf := c.buf ++ [b], bytesReceived := c.bytesReceived + [b].length }
        hs'
        (by rw [hf, List.append_cons])
        hauth
        (by show c.buf ++ [b] = p ++ [b]; rw [hbuf])
        hclosed hreg]
      simp only [List.nil_append, Prod.mk.injEq, Conn.mk.injEq, List.length_cons,
        List.length_nil]
      and_intros <;> first | rfl | trivial | omega | simp

/-- C7 (amended): a stream made of one valid login frame followed by whole
parser-accepted AVL frames is processed identically — same final state,
same writes, same sink batches — whether it arrives as one chunk or one
byte per chunk. -/
theorem chunking_invariance_valid_streams (payload : List Nat)
    (frames : List (List Nat)) (rss : List (List RawRecord))
    (hp : payload.length = 15)
    (hfa : List.Forall₂ AcceptedFrame frames rss)
    (hcap : 17 + frames.flatten.length ≤ 65536) :
    feedOnce initConn ([0, 15] ++ payload ++ frames.flatten) =
      feedBytes initConn ([0, 15] ++ payload ++ frames.flatten) ∧
    (feedOnce initConn ([0, 15] ++ payload ++ frames.flatten)).2 =
      Out.write [1] :: batchOuts (payload.map (· % 128)) rss := by
  have hpercap : ∀ f ∈ frames, f.length ≤ 65536 := by
    intro f hf
    have hmem : f.length ∈ frames.map List.length := List.mem_map_of_mem _ hf
    have := List.single_le_sum (fun x _ => Nat.zero_le x) f.length hmem
    rw [← List.length_flatten] at this
    omega
  have hsingle : feedOnce initConn ([0, 15] ++ payload ++ frames.flatten) =
      ({ initConn with auth := some (payload.map (· % 128)), buf := []
                       packetsReceived := initConn.packetsReceived + 1 + prIncs rss
                       bytesReceived := initConn.bytesReceived +
                         ([0, 15] ++ payload ++ frames.flatten).length },
        Out.write [1] :: batchOuts (payload.map (· % 128)) rss) := by
    show onData initConn ([0, 15] ++ payload ++ frames.flatten) = _
    rw [onData_open initConn ([0, 15] ++ payload ++ frames.flatten) rfl rfl
      (by simp only [initConn, List.nil_append, List.length_append,
            List.length_cons, List.length_nil, hp]
          omega)]
    have hfuel : (initConn.buf ++ ([0, 15] ++ payload ++ frames.flatten)).length =
        (16 + frames.flatten.length) + 1 := by
      simp only [initConn, List.nil_append, List.length_append, List.length_cons,
        List.length_nil, hp]
      omega
    rw [hfuel]
    generalize initConn.bytesReceived +
      ([0, 15] ++ payload ++ frames.flatten).length = B
    rw [loopF_login (16 + frames.flatten.length)
      { initConn with buf := initConn.buf ++ ([0, 15] ++ payload ++ frames.flatten)
                      bytesReceived := B }
      payload frames.flatten rfl (by simp [initConn]) hp]
    rw [loopF_frames frames rss (16 + frames.flatten.length)
      { initConn with
          auth := some (payload.map (· % 128))
          buf := frames.flatten
          packetsReceived := initConn.packetsReceived + 1
          bytesReceived := B }
      (payload.map (· % 128)) rfl rfl hfa (by simp)]
  have hbytes : feedBytes initConn ([0, 15] ++ payload ++ frames.flatten) =
      ({ initConn with auth := some (payload.map (· % 128)), buf := []
                       packetsReceived := initConn.packetsReceived + 1 + prIncs rss
                       bytesReceived := initConn.bytesReceived +
                         ([0, 15] ++ payload).length + frames.flatten.length },
        Out.write [1] :: batchOuts (payload.map (· % 128)) rss) := by
    rw [show ([0, 15] ++ payload ++ frames.flatten : List Nat) =
        ([0, 15] ++ payload) ++ frames.flatten from
      (List.append_assoc [0, 15] payload frames.flatten).symm]
    rw [feedBytes_append]
    rw [feedBytes_login_suffix payload hp ([0, 15] ++ payload) [] initConn
      (by simp) (by simp) rfl rfl rfl rfl]
    generalize initConn.bytesReceived + ([0, 15] ++ payload).length = B
    rw [feedBytes_frames frames rss
      { initConn with auth := some (payload.map (· % 128)), buf := []
                      packetsReceived := initConn.packetsReceived + 1
                      bytesReceived := B }
      (payload.map (· % 128)) rfl rfl rfl rfl hfa hpercap]
    rfl
  refine ⟨?_, by rw [hsingle]⟩
  rw [hsingle, hbytes]
  simp only [Prod.mk.injEq, Conn.mk.injEq, List.length_append, List.length_cons,
    List.length_nil]
  and_intros <;> first | rfl | trivial | omega | simp

/-! ## Concrete witnesses and counterexamples -/

set_option maxRecDepth 80000

/-- C1 witness: a concrete single-record frame is acknowledged with the
big-endian u32 encoding of 1 after the sink enqueue. -/
theorem ack_counts_records_witness :
    onData authConn sampleFrame =
      ({ authConn with buf := [], packetsReceived := authConn.packetsReceived + 1
                       bytesReceived := authConn.bytesReceived + sampleFrame.length },
        [Out.sink imeiBytes ([sampleRaw].map normP0),
          Out.write (beBytes 4 ([sampleRaw] : List RawRecord).length)]) :=
  ack_counts_records authConn imeiBytes sampleFrame [sampleRaw] rfl rfl rfl rfl
    (by decide) (by decide) (by decide) (by decide)

/-- C1 counterexample: a CRC-correct frame announcing zero records is
accepted by the decoder yet the handler writes nothing at all — there is no
4-byte acknowledgement encoding 0. -/
theorem zero_record_frame_no_ack :
    parseAvlPacket zeroRecFrame = some [] ∧
    (onData authConn zeroRecFrame).2 = [] := by decide

/-- C2 witness: a concrete frame with a corrupted CRC byte is consumed with
no output and no close. -/
theorem crc_mismatch_frame_dropped_witness :
    onData authConn badCrcFrame =
      ({ authConn with buf := []
                       bytesReceived := authConn.bytesReceived + badCrcFrame.length },
        []) :=
  crc_mismatch_frame_dropped authConn imeiBytes badCrcFrame rfl rfl rfl rfl
    (by decide) (by decide) (by decide) (by decide)

/-- C2 counterexample: the CRC of the corrupted frame really mismatches,
yet the connection is not closed. -/
theorem crc_mismatch_keeps_connection_open :
    crc16 ((badCrcFrame.drop 8).take (beVal ((badCrcFrame.drop 4).take 4))) ≠
      beVal ((badCrcFrame.drop (8 + beVal ((badCrcFrame.drop 4).take 4))).take 4) % 65536 ∧
    (onData authConn badCrcFrame).1.closed = false ∧
    (onData authConn badCrcFrame).1.closeReason = none := by decide

/-- C3 witness: a login announcing length 14 is left unconsumed with no
output. -/
theorem bad_login_length_ignored_witness :
    onData initConn ([0, 14] ++ List.replicate 15 48) =
      ({ initConn with buf := [0, 14] ++ List.replicate 15 48
                       bytesReceived := ([0, 14] ++ List.replicate 15 48).length },
        []) :=
  bad_login_length_ignored ([0, 14] ++ List.replicate 15 48) (by decide) (by decide)

/-- C3 counterexample: after a bad-length login the connection is still
open and the session still registered — no fault, no close, no teardown. -/
theorem bad_login_length_no_close :
    (onData initConn ([0, 14] ++ List.replicate 15 48)).1.closed = false ∧
    (onData initConn ([0, 14] ++ List.replicate 15 48)).1.registered = true ∧
    (onData initConn ([0, 14] ++ List.replicate 15 48)).2 = [] := by decide

/-- C4 witness: fifteen bytes of ascii `A` (not digits) authenticate. -/
theorem auth_imei_fifteen_any_bytes_witness :
    (onData initConn ([0, 15] ++ List.replicate 15 65)).1.auth =
      some ((List.replicate 15 65).map (· % 128)) ∧
    (onData initConn ([0, 15] ++ List.replicate 15 65)).2 = [Out.write [1]] :=
  auth_imei_fifteen_any_bytes.2 (List.replicate 15 65) (by decide)

/-- C4 counterexample: a login whose payload is fifteen `A` bytes (65, not
an ascii digit) authenticates the session instead of being rejected. -/
theorem nondigit_login_authenticates :
    (onData initConn ([0, 15] ++ List.replicate 15 65)).1.auth =
      some (List.replicate 15 65) ∧
    ¬ (48 ≤ 65 ∧ 65 ≤ 57) := by decide

/-- C5 witness: the initial state is under the cap, and a 65,537-byte
arrival closes the connection with the buffer-overflow kind. -/
theorem buffer_cap_invariant_witness :
    initConn.buf.length ≤ 65536 ∧
    ((onData initConn (List.replicate 65537 0)).1.closed = true ∧
      (onData initConn (List.replicate 65537 0)).1.closeReason =
        some CloseKind.bufferOverflow) :=
  ⟨buffer_cap_invariant.1 initConn Reachable.init,
    buffer_cap_invariant.2 initConn (List.replicate 65537 0) rfl rfl
      (by rw [List.length_replicate]
          omega)⟩

/-- C6 witness: eight bytes with a non-zero preamble are swallowed whole
with no output. -/
theorem bad_preamble_clears_buffer_witness :
    onData authConn [1, 2, 3, 4, 0, 0, 0, 0] =
      ({ authConn with buf := []
                       bytesReceived := authConn.bytesReceived +
                         ([1, 2, 3, 4, 0, 0, 0, 0] : List Nat).length },
        []) :=
  bad_preamble_clears_buffer authConn imeiBytes [1, 2, 3, 4, 0, 0, 0, 0] rfl rfl rfl
    rfl (by decide) (by decide) (by decide)

/-- C6 counterexample: after the bad preamble the connection is still open
— no `BadPreamble` close happens. -/
theorem bad_preamble_no_close :
    (onData authConn [1, 2, 3, 4, 0, 0, 0, 0]).1.closed = false ∧
    (onData authConn [1, 2, 3, 4, 0, 0, 0, 0]).1.closeReason = none := by decide

/-- C7 witness: chunking invariance on a concrete login followed by one
valid single-record frame. -/
theorem chunking_invariance_valid_streams_witness :
    (feedOnce initConn ([0, 15] ++ imeiBytes ++ ([sampleFrame] : List (List Nat)).flatten) =
      feedBytes initConn ([0, 15] ++ imeiBytes ++ ([sampleFrame] : List (List Nat)).flatten)) ∧
    (feedOnce initConn ([0, 15] ++ imeiBytes ++ ([sampleFrame] : List (List Nat)).flatten)).2 =
      Out.write [1] :: batchOuts (imeiBytes.map (· % 128)) [[sampleRaw]] :=
  chunking_invariance_valid_streams imeiBytes [sampleFrame] [[sampleRaw]]
    (by decide) (List.Forall₂.cons ⟨by decide, by decide⟩ List.Forall₂.nil)
    (by decide)

/-- C7 counterexample: with a bad-preamble segment in the middle, a single
chunk loses the trailing valid frame (the whole buffer is cleared) while
byte-at-a-time delivery recovers it — the output sequences differ. -/
theorem chunking_divergence :
    (feedOnce initConn
        (([0, 15] ++ imeiBytes) ++ [1, 2, 3, 4, 0, 0, 0, 0] ++ sampleFrame)).2 ≠
      (feedBytes initConn
        (([0, 15] ++ imeiBytes) ++ [1, 2, 3, 4, 0, 0, 0, 0] ++ sampleFrame)).2 := by
  decide

/-- C8 witness: on a concrete record the part_000 normalizer reports
ignition on, and the index.js normalizer passes a nonzero speed through. -/
theorem speed_ignition_normalization_witness :
    (normP0 sampleRaw).ignition = some true ∧
    (normIdx 0 idxSample).speed = some 63 :=
  ⟨((speed_ignition_normalization.1 sampleRaw).2.1).mpr (by decide),
    (speed_ignition_normalization.2 0 idxSample).2.1 63 (by decide) (by decide)⟩

/-- C8 counterexample: in index.js a decoded speed of 0 normalizes to null
(not 0), and an ignition element with value 0 normalizes to null (not
false). -/
theorem idx_speed_zero_null :
    idxZeroRecord.speed = some 0 ∧
    idxIoValue idxZeroRecord 239 = some 0 ∧
    (normIdx 0 idxZeroRecord).speed = none ∧
    (normIdx 0 idxZeroRecord).ignition = none := by decide

/-- C9 witness: with a present non-zero timestamp the index.js normalizer
gives the same result under two different clocks. -/
theorem normalizer_determinism_witness :
    idxSample.timestampMs ≠ none ∧ idxSample.timestampMs ≠ some 0 ∧
    normIdx 5 idxSample = normIdx 6 idxSample :=
  ⟨by decide, by decide, normalizer_determinism 5 6 idxSample (by decide) (by decide)⟩

/-- C9 counterexample: when `timestampMs` is absent the index.js normalizer
output depends on the ambient clock — two runs differ. -/
theorem idx_timestamp_clock_dependent :
    normIdx 5 idxNoTsRecord ≠ normIdx 6 idxNoTsRecord := by decide

/-- C10 witness: an odometer element of value 0 normalizes to null in both
normalizers. -/
theorem odometer_truthy_projection_witness :
    (normP0 rawZeroOdo).odometer = none ∧
    (normIdx 0 idxZeroRecord).odometer = none :=
  ⟨(odometer_truthy_projection.1 rawZeroOdo).1 (by decide),
    (odometer_truthy_projection.2 0 idxZeroRecord).1 (by decide)⟩

end GpsServer
